import Mathlib

/-!
Shallow embedding of the conversation/messaging subsystem of the
Business-Directory-FullStack repository.

Embedded sources:
* `server/routes/message.ts` — the four message routes (send, list
  conversations, list messages, mark read);
* `server/middleware/messageAuth.ts` — the `messageAuthorization`
  middleware mounted on the two read routes;
* the server entry file (socket.io authentication middleware and
  connection handler).

The Mongoose schema files `models/Conversation.ts` and `models/Message.ts`
are imported by the routes but are not present in the repository snapshot;
the two record structures below are modelled from the spec's data model
(§3) where marked.  ObjectIds are embedded as `Nat`; the store collections
are lists kept in insertion order.
-/

namespace BD

/-- Identity record as the routes see it (`models/User.ts`): an id and a
role drawn from `'user' | 'business' | 'admin'`.  Only the fields the
messaging code reads are embedded. -/
structure User where
  uid : Nat
  role : String
deriving DecidableEq

/-- Modelled from the spec: `models/Conversation.ts` is missing from the
snapshot.  Spec §3: a Conversation has exactly two participants stored in
a stable order and a last-activity timestamp (`lastActive` is the field
name the routes use). -/
structure Conversation where
  cid : Nat
  participants : List Nat
  lastActive : Nat
deriving DecidableEq

/-- Modelled from the spec: `models/Message.ts` is missing from the
snapshot.  Spec §3: a Message carries its conversation id, sender,
receiver, non-empty trimmed content, a `read` flag that defaults to
`false` on creation (spec §8 scenario: `send` returns a message whose
`read=false`), and a server-assigned `createdAt` timestamp. -/
structure Message where
  mid : Nat
  conversation : Nat
  sender : Nat
  receiver : Nat
  content : String
  read : Bool
  createdAt : Nat
deriving DecidableEq

/-- The durable store: the three MongoDB collections the messaging code
touches, as lists in insertion order, plus fresh-id counters standing in
for ObjectId generation. -/
structure Store where
  users : List User
  conversations : List Conversation
  messages : List Message
  nextCid : Nat
  nextMid : Nat
deriving DecidableEq

/-- A raw id arriving in a request: either it fails
`mongoose.Types.ObjectId.isValid` or it denotes an ObjectId. -/
inductive ReqId where
  | malformed (raw : String)
  | oid (n : Nat)
deriving DecidableEq

/-- A socket.io event emitted to a room (`io.to(room).emit(...)`).  Rooms
are keyed by the stringified ObjectId of an identity; ids are embedded as
`Nat`, and `toString` on ObjectIds is injective, so the room key is the
`Nat` itself. -/
inductive Event where
  | newMessage (room : Nat) (conversationId : Nat) (m : Message)
  | messagesRead (room : Nat) (conversationId : Nat) (readerId : Nat)
deriving DecidableEq

/-- `User.findById` on the users collection. -/
def findUser (users : List User) (uid : Nat) : Option User :=
  users.find? (fun u => u.uid == uid)

/-- The filter document `{ participants: { $all: [a, b], $size: 2 } }`
used by the send handler's `Conversation.findOneAndUpdate`: the
participants array contains both `a` and `b` and has length 2. -/
def pairQuery (a b : Nat) (c : Conversation) : Bool :=
  (c.participants.contains a && c.participants.contains b) &&
    c.participants.length == 2

/-- Embeds `Conversation.findOneAndUpdate(pairQuery, { $setOnInsert:
{ participants: [senderId, receiverId] } }, { new: true, upsert: true })`
(message.ts lines 63–67): return the first conversation matching the pair
query, or insert one whose participants are `[a, b]` and return it. -/
def findOrCreateConversation (s : Store) (a b : Nat) : Conversation × Store :=
  match s.conversations.find? (pairQuery a b) with
  | some c => (c, s)
  | none =>
      let c : Conversation := { cid := s.nextCid, participants := [a, b], lastActive := 0 }
      (c, { s with conversations := s.conversations ++ [c], nextCid := s.nextCid + 1 })

/-- JS `String.prototype.trim()`: whitespace stripped from both ends,
modelled on the character list so it evaluates by kernel reduction. -/
def jsTrim (s : String) : String :=
  ⟨((s.data.dropWhile Char.isWhitespace).reverse.dropWhile Char.isWhitespace).reverse⟩

/-- JS `content?.trim()` with `undefined` collapsing to the empty string:
`!content?.trim()` is true exactly when this value is `""`. -/
def trimOrEmpty : Option String → String
  | none => ""
  | some c => jsTrim c

/-- Outcome of the `POST /send` route: HTTP status, the store after the
request, the socket events emitted, and the created message (for 201). -/
structure SendOutcome where
  status : Nat
  store : Store
  events : List Event
  message : Option Message
deriving DecidableEq

/-- Embeds the `POST /send` handler (message.ts lines 32–102), in source
order: 400 when `receiverId` fails ObjectId validation; 400 when the
trimmed content is empty; `User.findById(receiverId)`, answering 404 when
the receiver is missing or equals the sender; 403 when the caller's role
is `business` and the receiver's role is not `user`; otherwise
find-or-create the conversation, insert the message (content trimmed,
`read` defaulting to false, `createdAt := now`), set the conversation's
`lastActive`, emit `newMessage` to the receiver's identity room, and
answer 201 with the message. -/
def sendRoute (s : Store) (sender : User) (receiverId : ReqId)
    (content : Option String) (now : Nat) : SendOutcome :=
  match receiverId with
  | .malformed _ => { status := 400, store := s, events := [], message := none }
  | .oid rid =>
    if trimOrEmpty content = "" then
      { status := 400, store := s, events := [], message := none }
    else
      match findUser s.users rid with
      | none => { status := 404, store := s, events := [], message := none }
      | some receiver =>
        if receiver.uid == sender.uid then
          { status := 404, store := s, events := [], message := none }
        else if sender.role == "business" && receiver.role != "user" then
          { status := 403, store := s, events := [], message := none }
        else
          let found := findOrCreateConversation s sender.uid rid
          let conv := found.1
          let s1 := found.2
          let msg : Message :=
            { mid := s1.nextMid, conversation := conv.cid, sender := sender.uid,
              receiver := rid, content := trimOrEmpty content, read := false,
              createdAt := now }
          let s2 := { s1 with messages := s1.messages ++ [msg], nextMid := s1.nextMid + 1 }
          let upd := fun (c : Conversation) =>
            if c.cid == conv.cid then { c with lastActive := now } else c
          let s3 := { s2 with conversations := s2.conversations.map upd }
          { status := 201, store := s3,
            events := [Event.newMessage rid conv.cid msg], message := some msg }

/-- The `req.params` object as Express binds it for a route.  The two read
routes are declared with path parameter `:conversationId`, so only that
key is bound; `params.id` stays `undefined` (`none`). -/
structure Params where
  id : Option Nat
  conversationId : Option Nat
deriving DecidableEq

/-- `Message.findById(x)` on the messages collection.  Mongoose translates
`findById(undefined)` into `findOne({ _id: null })`, which matches no
document, so a `none` id yields `none`. -/
def messageFindById (id? : Option Nat) (msgs : List Message) : Option Message :=
  match id? with
  | none => none
  | some i => msgs.find? (fun m => m.mid == i)

/-- Result of the `messageAuthorization` middleware: a terminal HTTP
response or fall-through to the route handler (`next()`). -/
inductive MiddlewareResult where
  | notFound
  | serverError
  | forbidden
  | pass
deriving DecidableEq

/-- Embeds `messageAuthorization` (server/middleware/messageAuth.ts lines
11–59).  The middleware queries `Message.findById(req.params.id)`; when
that yields no document it answers 404 "Conversation not found".  When a
document is found, the code reads `conversation.participants` where
`conversation` is the returned Message document; the Message schema has no
`participants` path, so the access yields `undefined`, `.some` throws a
TypeError, and the catch block answers 500. -/
def messageAuthorization (params : Params) (msgs : List Message) : MiddlewareResult :=
  match messageFindById params.id msgs with
  | none => MiddlewareResult.notFound
  | some _ => MiddlewareResult.serverError

/-- JS string comparison used by `Array.prototype.sort()` with no
comparator: lexicographic on code units.  Role strings are ASCII, so
comparing `Char.toNat` agrees with the UTF-16 order. -/
def jsCharListLt : List Char → List Char → Bool
  | [], [] => false
  | [], _ :: _ => true
  | _ :: _, [] => false
  | a :: as, b :: bs =>
      if a.toNat < b.toNat then true
      else if b.toNat < a.toNat then false
      else jsCharListLt as bs

/-- `a < b` for JS default sort, on whole strings. -/
def jsStrLt (a b : String) : Bool := jsCharListLt a.data b.data

/-- Insert into a list already sorted by `jsStrLt`. -/
def jsInsert (x : String) : List String → List String
  | [] => [x]
  | y :: ys => if jsStrLt y x then y :: jsInsert x ys else x :: y :: ys

/-- JS `Array.prototype.sort()` on an array of strings (default
lexicographic comparator), as an insertion sort. -/
def jsSort (l : List String) : List String := l.foldr jsInsert []

/-- JS `Array.prototype.toString()`: elements joined by commas. -/
def jsArrayToString (l : List String) : String := String.intercalate "," l

/-- The `validInteractionTypes` table of messageAuth.ts lines 38–42. -/
def validInteractionTypes : List (List String) :=
  [["user", "user"], ["user", "business"], ["business", "business"]]

/-- Embeds the interaction-type check of messageAuth.ts lines 44–47: the
participants' roles, sorted and joined, must equal one of the sorted,
joined entries of `validInteractionTypes`. -/
def isValidInteractionRoles (roles : List String) : Bool :=
  validInteractionTypes.any
    (fun types => jsArrayToString (jsSort types) == jsArrayToString (jsSort roles))

/-- Embeds the participant check of messageAuth.ts lines 30–32 as it
would run on a conversation document: the caller's id must occur among
the participants. -/
def isParticipantCheck (caller : Nat) (participants : List Nat) : Bool :=
  participants.contains caller

/-- The filter of the `updateMany` in the mark-read handler (message.ts
lines 201–208): same conversation, addressed to the caller, unread. -/
def markReadMatches (cid uid : Nat) (m : Message) : Bool :=
  m.conversation == cid && m.receiver == uid && m.read == false

/-- The `$set: { read: true }` effect on one matching document. -/
def markReadApply (cid uid : Nat) (m : Message) : Message :=
  if markReadMatches cid uid m then { m with read := true } else m

/-- Embeds `Message.updateMany({conversation, receiver, read: false},
{ $set: { read: true } })`: flips the matching messages to read and
reports `modifiedCount`. -/
def markReadUpdate (s : Store) (cid uid : Nat) : Store × Nat :=
  let modified := (s.messages.filter (markReadMatches cid uid)).length
  ({ s with messages := s.messages.map (markReadApply cid uid) }, modified)

/-- Outcome of the `PATCH /:conversationId/read` route. -/
structure ReadOutcome where
  status : Nat
  store : Store
  events : List Event
  modifiedCount : Option Nat
deriving DecidableEq

/-- Embeds the `PATCH /:conversationId/read` route (message.ts lines
199–234): Express binds `req.params.conversationId` (never `id`), then
runs `messageAuthorization`; on fall-through the handler performs the
`updateMany` and then emits `messagesRead` only under `if
(req.conversation)` — a property no middleware in the repository ever
assigns, so the emit is skipped — and answers 200 with
`modifiedCount`. -/
def markReadRoute (s : Store) (caller : User) (conversationId : Nat) : ReadOutcome :=
  match messageAuthorization { id := none, conversationId := some conversationId } s.messages with
  | .notFound => { status := 404, store := s, events := [], modifiedCount := none }
  | .serverError => { status := 500, store := s, events := [], modifiedCount := none }
  | .forbidden => { status := 403, store := s, events := [], modifiedCount := none }
  | .pass =>
      let r := markReadUpdate s conversationId caller.uid
      { status := 200, store := r.1, events := [], modifiedCount := some r.2 }

/-- Status of the `GET /:conversationId/messages` route (message.ts lines
180–196): `messageAuthorization` runs first with the same unbound
`params.id`; only on fall-through does the handler run its query and
answer 200. -/
def listMessagesStatus (s : Store) (conversationId : Nat) : Nat :=
  match messageAuthorization { id := none, conversationId := some conversationId } s.messages with
  | .notFound => 404
  | .serverError => 500
  | .forbidden => 403
  | .pass => 200

/-- `Message.find({conversation: cid})`: the conversation's messages in
insertion (collection) order. -/
def conversationMessages (s : Store) (cid : Nat) : List Message :=
  s.messages.filter (fun m => m.conversation == cid)

/-- Embeds the query of the list-messages handler,
`Message.find({conversation: cid}).sort({createdAt: 1})` (message.ts
lines 182–185), as a relation: MongoDB's sort on the non-unique
`createdAt` key returns some permutation of the matching documents that
is nondecreasing in `createdAt`; the order among equal keys is not
specified (the sort is not stable and no secondary key is given). -/
def listMessagesQueryResult (s : Store) (cid : Nat) (result : List Message) : Prop :=
  result.Perm (conversationMessages s cid) ∧
    List.Sorted (fun a b : Message => a.createdAt ≤ b.createdAt) result

/-- The unread-count subpipeline of the conversations aggregate
(message.ts lines 139–158): messages of the conversation addressed to the
user with `read: false`, counted. -/
def unreadCount (s : Store) (cid uid : Nat) : Nat :=
  (s.messages.filter (fun m => m.conversation == cid && m.receiver == uid && !m.read)).length

/-- The `$match: { participants: uid }` stage: conversations whose
participants array contains the user. -/
def userConversations (s : Store) (uid : Nat) : List Conversation :=
  s.conversations.filter (fun c => c.participants.contains uid)

/-- Embeds the `GET /` conversations aggregate (message.ts lines
136–161) as a relation: the result pairs each conversation containing
the caller with its unread count, and is ordered by `$sort: { lastActive:
-1 }` — again a sort on a non-unique key, so any nonincreasing
permutation is a possible answer. -/
def listConversationsResult (s : Store) (uid : Nat)
    (result : List (Conversation × Nat)) : Prop :=
  (result.map Prod.fst).Perm (userConversations s uid) ∧
    (∀ p ∈ result, p.2 = unreadCount s p.1.cid uid) ∧
    List.Sorted (fun a b : Conversation × Nat => b.1.lastActive ≤ a.1.lastActive) result

/-- A bearer token as the socket.io auth middleware sees it: absent,
failing `jwt.verify`, or verified with payload `_id = uid`. -/
inductive Token where
  | missing
  | invalid (raw : String)
  | signed (uid : Nat)
deriving DecidableEq

/-- State of one live connection: rejected during the handshake (socket
terminated with an authentication error) or connected as a user with a
list of joined rooms, in join order. -/
inductive ConnState where
  | rejected
  | connected (user : User) (rooms : List Nat)
deriving DecidableEq

/-- Embeds the socket.io `io.use` middleware of the server entry file
(lines 85–104): reject when no token is presented, when `jwt.verify`
throws, or when `User.findById(decoded._id)` finds no user; otherwise
resolve the connection's user. -/
def socketAuthMiddleware (users : List User) (t : Token) : Option User :=
  match t with
  | .missing => none
  | .invalid _ => none
  | .signed uid => findUser users uid

/-- Embeds the connection lifecycle of the server entry file (lines
85–111): a connection whose middleware rejects never reaches the
`connection` handler (socket.io destroys it with an authentication
error); a connection that passes immediately runs
`socket.join(socket.data.user._id)`, so its room list starts as exactly
its own identity room. -/
def connect (users : List User) (t : Token) : ConnState :=
  match socketAuthMiddleware users t with
  | none => ConnState.rejected
  | some u => ConnState.connected u [u.uid]

/-- Embeds the `joinConversation` socket handler (server entry file lines
114–120): a rejected connection has no handlers; a connected one emits an
error (joining nothing) on a malformed id and otherwise joins the room
keyed by the conversation id. -/
def joinConversation (st : ConnState) (conversationId : ReqId) : ConnState :=
  match st with
  | .rejected => ConnState.rejected
  | .connected u rooms =>
      match conversationId with
      | .malformed _ => ConnState.connected u rooms
      | .oid cid => ConnState.connected u (rooms ++ [cid])

/-- Rooms a connection is a member of. -/
def roomsOf : ConnState → List Nat
  | .rejected => []
  | .connected _ rooms => rooms

/-- One send request, for iterating sequences of sends. -/
structure SendReq where
  sender : User
  receiverId : ReqId
  content : Option String
  now : Nat

/-- Apply a sequence of `POST /send` requests to the store. -/
def applySends (s : Store) (reqs : List SendReq) : Store :=
  reqs.foldl (fun st r => (sendRoute st r.sender r.receiverId r.content r.now).store) s

/-- The pair-uniqueness invariant of spec §3: for any two distinct ids,
at most one conversation matches the pair query (equivalently, has
participant set `{a, b}`). -/
def pairUnique (s : Store) : Prop :=
  ∀ a b : Nat, a ≠ b → (s.conversations.filter (pairQuery a b)).length ≤ 1

/-! Concrete fixtures used to exercise the definitions. -/

/-- An individual user. -/
def uAlice : User := { uid := 1, role := "user" }

/-- A second individual user. -/
def uBob : User := { uid := 2, role := "user" }

/-- A business user. -/
def uBiz : User := { uid := 3, role := "business" }

/-- A second business user. -/
def uBiz2 : User := { uid := 4, role := "business" }

/-- An admin user. -/
def uAdmin : User := { uid := 5, role := "admin" }

/-- The users collection of the fixture store. -/
def baseUsers : List User := [uAlice, uBob, uBiz, uBiz2, uAdmin]

/-- A conversation between the two individual users. -/
def conv12 : Conversation := { cid := 1, participants := [1, 2], lastActive := 10 }

/-- A conversation between the admin and an individual user. -/
def convAdmin : Conversation := { cid := 2, participants := [5, 1], lastActive := 11 }

/-- An unread message from Alice to Bob; same `createdAt` as `msgB`. -/
def msgA : Message :=
  { mid := 1, conversation := 1, sender := 1, receiver := 2, content := "hello",
    read := false, createdAt := 5 }

/-- An unread message from Bob to Alice in the same instant as `msgA`. -/
def msgB : Message :=
  { mid := 2, conversation := 1, sender := 2, receiver := 1, content := "hey",
    read := false, createdAt := 5 }

/-- The fixture store. -/
def exStore : Store :=
  { users := baseUsers, conversations := [conv12, convAdmin],
    messages := [msgA, msgB], nextCid := 3, nextMid := 3 }

/-- C2: participant gate.  The spec demands Forbidden (403) when a caller
reads or marks read a conversation it is not part of.  On the code, the
`messageAuthorization` middleware looks up `Message.findById(req.params.id)`
while the routes bind `:conversationId`, so the lookup always fails and
both read routes answer 404 for every caller and every conversation,
leaving the store untouched and emitting nothing — the participant check
is unreachable.  Concretely, `uBiz2` (not a participant of conversation
1) receives 404, not 403. -/
theorem participant_gate_unreachable :
    (∀ (s : Store) (cid : Nat), listMessagesStatus s cid = 404) ∧
    (∀ (s : Store) (u : User) (cid : Nat),
        markReadRoute s u cid =
          { status := 404, store := s, events := [], modifiedCount := none }) ∧
    listMessagesStatus exStore 1 = 404 ∧
    markReadRoute exStore uBiz2 1 =
      { status := 404, store := exStore, events := [], modifiedCount := none } :=
  ⟨fun _ _ => rfl, fun _ _ _ => rfl, rfl, rfl⟩

/-- C6: read-receipt notification.  The spec says a markRead with nonzero
modified count emits `messagesRead` to the other participant's identity
room.  On the code no `messagesRead` event is ever emitted: the route
answers 404 before the handler (broken middleware lookup), and even the
handler's emit is guarded by `req.conversation`, which no middleware in
the repository assigns.  Concretely, Bob marking conversation 1 read
(which holds an unread message addressed to him) produces no event. -/
theorem messagesRead_never_emitted :
    (∀ (s : Store) (u : User) (cid : Nat), (markReadRoute s u cid).events = []) ∧
    markReadRoute exStore uBob 1 =
      { status := 404, store := exStore, events := [], modifiedCount := none } :=
  ⟨fun _ _ _ => rfl, rfl⟩

/-- C3: a business caller sending to a business receiver is rejected with
403 and the request leaves the store unchanged, emits nothing, and
creates no message — provided the request survives the earlier checks
(well-formed receiver id, non-empty trimmed content, receiver resolving
to a business identity distinct from the caller). -/
theorem business_to_business_send_forbidden
    (s : Store) (sender : User) (rid : Nat) (content : Option String) (now : Nat)
    (receiver : User)
    (hs : sender.role = "business")
    (hfind : findUser s.users rid = some receiver)
    (hr : receiver.role = "business")
    (hne : receiver.uid ≠ sender.uid)
    (hc : trimOrEmpty content ≠ "") :
    sendRoute s sender (.oid rid) content now =
      { status := 403, store := s, events := [], message := none } := by
  simp only [sendRoute, hfind, if_neg hc]
  rw [if_neg (by simpa using hne), if_pos (by simp [hs, hr])]

/-- C3 witness: the business user 3 sending "hi" to the business user 4
in the fixture store is answered 403 with no state change. -/
theorem business_to_business_send_forbidden_witness :
    sendRoute exStore uBiz (.oid 4) (some "hi") 7 =
      { status := 403, store := exStore, events := [], message := none } :=
  business_to_business_send_forbidden exStore uBiz 4 (some "hi") 7 uBiz2
    rfl rfl rfl (by decide) (by decide)

/-- C4 counterexample: the claim says an unresolved `receiverId`, or one
equal to the caller, is rejected with 400 (InvalidArgument).  On the
code both cases are answered 404: user 1 sending "hi" to the nonexistent
id 99, and user 1 sending to itself, both yield status 404, and 404 is
not 400. -/
theorem send_unresolved_receiver_is_404 :
    (sendRoute exStore uAlice (.oid 99) (some "hi") 7).status = 404 ∧
    (sendRoute exStore uAlice (.oid 1) (some "hi") 7).status = 404 ∧
    (404 : Nat) ≠ 400 := by
  refine ⟨by decide, by decide, by decide⟩

/-- C4 amended: `send` rejects before any store write — with 400 when the
receiver id is malformed or the trimmed content is empty, and with 404
(NotFound, not 400) when the receiver id does not resolve to a real
identity or resolves to the caller itself; in every case the store is
unchanged, nothing is emitted, and no message is returned. -/
theorem send_input_validation
    (s : Store) (sender : User) (rid : Nat) (content : Option String) (now : Nat) :
    (∀ raw, sendRoute s sender (.malformed raw) content now =
        { status := 400, store := s, events := [], message := none }) ∧
    (trimOrEmpty content = "" →
        sendRoute s sender (.oid rid) content now =
          { status := 400, store := s, events := [], message := none }) ∧
    (trimOrEmpty content ≠ "" → findUser s.users rid = none →
        sendRoute s sender (.oid rid) content now =
          { status := 404, store := s, events := [], message := none }) ∧
    (∀ receiver, trimOrEmpty content ≠ "" →
        findUser s.users rid = some receiver → receiver.uid = sender.uid →
        sendRoute s sender (.oid rid) content now =
          { status := 404, store := s, events := [], message := none }) := by
  refine ⟨fun _ => rfl, fun hc => by simp [sendRoute, hc], fun hc hfind => ?_,
    fun receiver hc hfind heq => ?_⟩
  · simp [sendRoute, if_neg hc, hfind]
  · simp [sendRoute, if_neg hc, hfind, heq]

/-- C4 witness: in the fixture store, sending to the nonexistent id 99 is
answered 404 and sending whitespace-only content is answered 400, both
without state change. -/
theorem send_input_validation_witness :
    sendRoute exStore uAlice (.oid 99) (some "hi") 7 =
      { status := 404, store := exStore, events := [], message := none } ∧
    sendRoute exStore uAlice (.oid 2) (some "  ") 7 =
      { status := 400, store := exStore, events := [], message := none } :=
  ⟨(send_input_validation exStore uAlice 99 (some "hi") 7).2.2.1 (by decide) (by decide),
   (send_input_validation exStore uAlice 2 (some "  ") 7).2.1 (by decide)⟩

/-- C10 counterexample: the claim says a conversation with an admin
participant is rejected by the read paths with 403.  On the code,
conversation 2 of the fixture store (participants: the admin user 5 and
user 1) is answered 404 by `GET /:conversationId/messages` and by `PATCH
/:conversationId/read` — even for the admin participant itself — and 404
is not 403. -/
theorem admin_conversation_read_is_404 :
    listMessagesStatus exStore 2 = 404 ∧
    (markReadRoute exStore uAdmin 2).status = 404 ∧
    (404 : Nat) ≠ 403 := by
  refine ⟨rfl, rfl, by decide⟩

/-- C10 amended: conversations with an admin participant are indeed
unreachable through the read paths, but with 404, not 403: the broken
middleware lookup rejects every read-path request with 404.  Independently
the interaction-type table itself accepts only the role pairs
{user,user}, {user,business}, {business,business}: any pair containing
the admin role fails `isValidInteractionRoles`, so even a repaired lookup
would reject admin conversations (then with 403). -/
theorem admin_conversations_unreachable :
    (∀ (s : Store) (cid : Nat), listMessagesStatus s cid = 404) ∧
    (∀ (s : Store) (u : User) (cid : Nat), (markReadRoute s u cid).status = 404) ∧
    isValidInteractionRoles ["admin", "user"] = false ∧
    isValidInteractionRoles ["user", "admin"] = false ∧
    isValidInteractionRoles ["admin", "business"] = false ∧
    isValidInteractionRoles ["business", "admin"] = false ∧
    isValidInteractionRoles ["admin", "admin"] = false ∧
    isValidInteractionRoles ["user", "business"] = true :=
  ⟨fun _ _ => rfl, fun _ _ _ => rfl, by decide, by decide, by decide, by decide,
   by decide, by decide⟩

/-! Helper lemmas shared by several theorems. -/

/-- A message that went through `markReadApply` no longer matches the
mark-read filter. -/
theorem markReadApply_not_matches (cid uid : Nat) (m : Message) :
    markReadMatches cid uid (markReadApply cid uid m) = false := by
  by_cases h : markReadMatches cid uid m = true
  · rw [markReadApply, if_pos h]
    simp [markReadMatches]
  · rw [markReadApply, if_neg h]
    simpa using h

/-- Applying the mark-read update twice is the same as applying it
once. -/
theorem markReadApply_idem (cid uid : Nat) (m : Message) :
    markReadApply cid uid (markReadApply cid uid m) = markReadApply cid uid m := by
  rw [markReadApply, markReadApply_not_matches]
  simp

/-- A rejected connection stays rejected under any sequence of join
requests. -/
theorem foldl_join_rejected (reqs : List ReqId) :
    reqs.foldl joinConversation ConnState.rejected = ConnState.rejected := by
  induction reqs with
  | nil => rfl
  | cons r rs ih => simpa [joinConversation] using ih

/-- A connected socket keeps its user and only ever appends rooms. -/
theorem foldl_join_connected (reqs : List ReqId) :
    ∀ (u : User) (rooms : List Nat), ∃ ext : List Nat,
      reqs.foldl joinConversation (ConnState.connected u rooms) =
        ConnState.connected u (rooms ++ ext) := by
  induction reqs with
  | nil => exact fun u rooms => ⟨[], by simp⟩
  | cons r rs ih =>
    intro u rooms
    cases r with
    | malformed raw =>
      rcases ih u rooms with ⟨ext, hext⟩
      exact ⟨ext, by simpa [joinConversation] using hext⟩
    | oid cid =>
      rcases ih u (rooms ++ [cid]) with ⟨ext, hext⟩
      exact ⟨[cid] ++ ext, by simpa [joinConversation, List.append_assoc] using hext⟩

/-- C5: markRead exactness and idempotence.  `markReadUpdate` reports as
`modifiedCount` the number of messages of the conversation addressed to
the receiver with `read = false`; it rewrites the message collection
pointwise, flipping exactly the matching messages to `read = true` and
leaving every other message unchanged; and running it again immediately
afterwards returns modified count 0 and leaves the store exactly as it
was (no error). -/
theorem markRead_exact_and_idempotent (s : Store) (cid uid : Nat) :
    (markReadUpdate s cid uid).2 =
      (s.messages.filter (markReadMatches cid uid)).length ∧
    (markReadUpdate s cid uid).1.messages.length = s.messages.length ∧
    (∀ i : Nat, (markReadUpdate s cid uid).1.messages[i]? =
        (s.messages[i]?).map (markReadApply cid uid)) ∧
    markReadUpdate (markReadUpdate s cid uid).1 cid uid =
      ((markReadUpdate s cid uid).1, 0) := by
  refine ⟨rfl, by simp [markReadUpdate], fun i => by simp [markReadUpdate], ?_⟩
  have h1 : (s.messages.map (markReadApply cid uid)).filter (markReadMatches cid uid) = [] := by
    refine List.filter_eq_nil_iff.mpr ?_
    intro m hm
    rcases List.mem_map.mp hm with ⟨x, _, rfl⟩
    simp [markReadApply_not_matches]
  have h2 : (s.messages.map (markReadApply cid uid)).map (markReadApply cid uid) =
      s.messages.map (markReadApply cid uid) := by
    rw [List.map_map]
    congr 1
    funext x
    simpa [Function.comp] using markReadApply_idem cid uid x
  simp [markReadUpdate, h1, h2]

/-- C9: realtime connection state machine.  A connection whose token
fails to resolve to a user is rejected during the handshake: it stays
`rejected` under any sequence of `joinConversation` requests and is a
member of no room.  A connection whose token resolves to user `u`
reaches the connected state already joined to the room keyed by its own
identity id, which precedes (heads the room list before) every
client-requested join. -/
theorem realtime_auth_and_identity_room (users : List User) (t : Token) :
    (socketAuthMiddleware users t = none →
        ∀ reqs : List ReqId,
          reqs.foldl joinConversation (connect users t) = ConnState.rejected ∧
          roomsOf (reqs.foldl joinConversation (connect users t)) = []) ∧
    (∀ u : User, socketAuthMiddleware users t = some u →
        ∀ reqs : List ReqId, ∃ more : List Nat,
          reqs.foldl joinConversation (connect users t) =
            ConnState.connected u (u.uid :: more)) := by
  constructor
  · intro h reqs
    have hc : connect users t = ConnState.rejected := by simp [connect, h]
    rw [hc, foldl_join_rejected]
    exact ⟨rfl, rfl⟩
  · intro u h reqs
    have hc : connect users t = ConnState.connected u [u.uid] := by simp [connect, h]
    rw [hc]
    rcases foldl_join_connected reqs u [u.uid] with ⟨ext, hext⟩
    exact ⟨ext, by simpa using hext⟩

/-- C9 witness: with no token the fixture connection is rejected and in
no room even after requesting a join; with a token signed for uid 1 the
connection is connected as Alice with her identity room first. -/
theorem realtime_auth_witness :
    ([ReqId.oid 7].foldl joinConversation (connect baseUsers Token.missing) =
        ConnState.rejected ∧
      roomsOf ([ReqId.oid 7].foldl joinConversation (connect baseUsers Token.missing)) = []) ∧
    (∃ more : List Nat,
      [ReqId.oid 7].foldl joinConversation (connect baseUsers (Token.signed 1)) =
        ConnState.connected uAlice (uAlice.uid :: more)) :=
  ⟨(realtime_auth_and_identity_room baseUsers Token.missing).1 rfl [ReqId.oid 7],
   (realtime_auth_and_identity_room baseUsers (Token.signed 1)).2 uAlice rfl [ReqId.oid 7]⟩

/-- C7 counterexample: the claim says `listMessages` breaks `createdAt`
ties by insertion sequence.  The handler sorts by `createdAt` alone, and
MongoDB's sort on a non-unique key fixes no order among equal keys:
in the fixture store, messages 1 and 2 of conversation 1 share
`createdAt = 5` and are stored in insertion order `[msgA, msgB]`, yet
`[msgB, msgA]` is also a possible answer of the embedded query, and it
differs from the insertion order. -/
theorem listMessages_tie_order_unspecified :
    listMessagesQueryResult exStore 1 [msgB, msgA] ∧
    conversationMessages exStore 1 = [msgA, msgB] ∧
    ([msgB, msgA] : List Message) ≠ [msgA, msgB] := by
  refine ⟨⟨by decide, by decide⟩, by decide, by decide⟩

/-- C7 amended: `listMessages` returns the conversation's messages —
each message of the conversation with its exact multiplicity and nothing
else — in ascending `createdAt` order; the relative order of messages
with equal `createdAt` is unspecified (the handler sorts by `createdAt`
only, with no insertion-sequence tiebreaker). -/
theorem listMessages_sorted_by_createdAt
    (s : Store) (cid : Nat) (result : List Message)
    (h : listMessagesQueryResult s cid result) :
    List.Sorted (fun a b : Message => a.createdAt ≤ b.createdAt) result ∧
    (∀ m : Message, result.count m = (conversationMessages s cid).count m) ∧
    (∀ m ∈ result, m.conversation = cid) := by
  refine ⟨h.2, fun m => h.1.count_eq m, fun m hm => ?_⟩
  have hmem : m ∈ conversationMessages s cid := h.1.mem_iff.mp hm
  have := List.of_mem_filter hmem
  simpa using this

/-- C7 witness: the answer `[msgB, msgA]` for conversation 1 of the
fixture store is sorted by `createdAt`, carries exactly the
conversation's messages, and contains only messages of conversation
1. -/
theorem listMessages_sorted_by_createdAt_witness :
    List.Sorted (fun a b : Message => a.createdAt ≤ b.createdAt) [msgB, msgA] ∧
    (∀ m : Message,
        ([msgB, msgA] : List Message).count m = (conversationMessages exStore 1).count m) ∧
    (∀ m ∈ ([msgB, msgA] : List Message), m.conversation = 1) :=
  listMessages_sorted_by_createdAt exStore 1 [msgB, msgA] ⟨by decide, by decide⟩

/-- The `read == false` test of the mark-read filter agrees with the
`!m.read` test of the unread-count pipeline. -/
theorem unread_eq_markReadMatches (cid uid : Nat) (m : Message) :
    (m.conversation == cid && m.receiver == uid && !m.read) = markReadMatches cid uid m := by
  unfold markReadMatches
  cases hr : m.read <;> simp [hr]

/-- Find-or-create never touches the messages collection. -/
theorem findOrCreate_messages (s : Store) (a b : Nat) :
    (findOrCreateConversation s a b).2.messages = s.messages := by
  unfold findOrCreateConversation
  cases h : s.conversations.find? (pairQuery a b) <;> simp [h]

/-- A successful send appends exactly one message: addressed to the
requested receiver, unread, with the trimmed content and the given
timestamp. -/
theorem sendRoute_message_spec (s : Store) (sender : User) (rid : Nat)
    (content : Option String) (now : Nat) (m : Message)
    (hm : (sendRoute s sender (.oid rid) content now).message = some m) :
    m.receiver = rid ∧ m.read = false ∧ m.content = trimOrEmpty content ∧
    m.createdAt = now ∧
    (sendRoute s sender (.oid rid) content now).store.messages = s.messages ++ [m] := by
  by_cases hc : trimOrEmpty content = ""
  · simp [sendRoute, hc] at hm
  · cases hfind : findUser s.users rid with
    | none => simp [sendRoute, if_neg hc, hfind] at hm
    | some receiver =>
      by_cases he : (receiver.uid == sender.uid) = true
      · simp [sendRoute, if_neg hc, hfind, he] at hm
      · by_cases hb : (sender.role == "business" && receiver.role != "user") = true
        · have he' : ¬(receiver.uid = sender.uid) := by simpa using he
          simp [sendRoute, if_neg hc, hfind, hb, he'] at hm
        · simp only [sendRoute, if_neg hc, hfind, if_neg he, if_neg hb] at hm ⊢
          obtain rfl := (Option.some.inj hm).symm
          refine ⟨rfl, rfl, rfl, rfl, ?_⟩
          rw [findOrCreate_messages]

/-- C8: unread accounting.  Any answer of the conversations aggregate
for an identity is ordered by `lastActive` descending, lists exactly the
conversations in which the identity is a participant, and annotates each
with the number of messages of that conversation addressed to the
identity and still unread; moreover a mark-read drops that number to 0,
and each successful send of a message increments the receiver's unread
number for the message's conversation by one. -/
theorem conversations_unread_accounting :
    (∀ (s : Store) (uid : Nat) (result : List (Conversation × Nat)),
        listConversationsResult s uid result →
          List.Sorted (fun a b : Conversation × Nat => b.1.lastActive ≤ a.1.lastActive) result ∧
          (∀ c : Conversation, c ∈ userConversations s uid ↔ ∃ n : Nat, (c, n) ∈ result) ∧
          (∀ p ∈ result, p.2 = unreadCount s p.1.cid uid)) ∧
    (∀ (s : Store) (cid uid : Nat), unreadCount (markReadUpdate s cid uid).1 cid uid = 0) ∧
    (∀ (s : Store) (sender : User) (rid : Nat) (content : Option String) (now : Nat)
        (m : Message), (sendRoute s sender (.oid rid) content now).message = some m →
          unreadCount (sendRoute s sender (.oid rid) content now).store m.conversation rid =
            unreadCount s m.conversation rid + 1) := by
  refine ⟨fun s uid result h => ⟨h.2.2, fun c => ?_, h.2.1⟩, fun s cid uid => ?_, ?_⟩
  · constructor
    · intro hc
      have hmap : c ∈ result.map Prod.fst := h.1.mem_iff.mpr hc
      rcases List.mem_map.mp hmap with ⟨p, hp, hpc⟩
      refine ⟨p.2, ?_⟩
      have : (c, p.2) = p := by rw [← hpc]
      rw [this]; exact hp
    · rintro ⟨n, hn⟩
      exact h.1.mem_iff.mp (List.mem_map.mpr ⟨(c, n), hn, rfl⟩)
  · have hnil : (markReadUpdate s cid uid).1.messages.filter
        (fun m => m.conversation == cid && m.receiver == uid && !m.read) = [] := by
      refine List.filter_eq_nil_iff.mpr ?_
      intro m hm
      have hm' : m ∈ s.messages.map (markReadApply cid uid) := by
        simpa [markReadUpdate] using hm
      rcases List.mem_map.mp hm' with ⟨x, _, rfl⟩
      simp [unread_eq_markReadMatches, markReadApply_not_matches]
    unfold unreadCount
    rw [hnil]
    rfl
  · intro s sender rid content now m hm
    obtain ⟨hrecv, hread, -, -, hmsgs⟩ := sendRoute_message_spec s sender rid content now m hm
    unfold unreadCount
    rw [hmsgs, List.filter_append]
    have : ([m].filter
        (fun x => x.conversation == m.conversation && x.receiver == rid && !x.read)) = [m] := by
      simp [List.filter, hrecv, hread]
    rw [this, List.length_append]
    rfl

/-- C8 witness: in the fixture store, `[(conv12, 1)]` is a valid answer
of the aggregate for user 2 and its unread annotation is correct; a
mark-read on conversation 1 for user 2 zeroes the count; and Alice's
send of "hi" to Bob increments Bob's unread count for the resulting
conversation. -/
theorem conversations_unread_accounting_witness :
    (∀ p ∈ ([(conv12, 1)] : List (Conversation × Nat)), p.2 = unreadCount exStore p.1.cid 2) ∧
    unreadCount (markReadUpdate exStore 1 2).1 1 2 = 0 ∧
    unreadCount (sendRoute exStore uAlice (.oid 2) (some "hi") 7).store 1 2 =
      unreadCount exStore 1 2 + 1 := by
  refine ⟨((conversations_unread_accounting.1 exStore 2 [(conv12, 1)])
      ⟨by decide, by decide, by decide⟩).2.2, conversations_unread_accounting.2.1 exStore 1 2, ?_⟩
  have h := conversations_unread_accounting.2.2 exStore uAlice 2 (some "hi") 7
    { mid := 3, conversation := 1, sender := 1, receiver := 2, content := "hi",
      read := false, createdAt := 7 } (by decide)
  simpa using h

/-- The pair query is symmetric in the two ids. -/
theorem pairQuery_comm (a b : Nat) : pairQuery a b = pairQuery b a := by
  funext c
  unfold pairQuery
  rw [Bool.and_comm (c.participants.contains a) (c.participants.contains b)]

/-- A freshly inserted conversation `[a, b]` matches its own pair
query. -/
theorem pairQuery_self (a b cid la : Nat) :
    pairQuery a b { cid := cid, participants := [a, b], lastActive := la } = true := by
  simp [pairQuery]

/-- Updating `lastActive` does not change whether a conversation matches
a pair query. -/
theorem pairQuery_set_lastActive (a b sel now : Nat) (c : Conversation) :
    pairQuery a b (if c.cid == sel then { c with lastActive := now } else c) =
      pairQuery a b c := by
  by_cases h : (c.cid == sel) = true
  · rw [if_pos h]; rfl
  · rw [if_neg h]

/-- Rewriting `lastActive` across the collection leaves every pair-query
match count unchanged. -/
theorem filter_length_map_lastActive (a b sel now : Nat) (l : List Conversation) :
    ((l.map (fun c => if c.cid == sel then { c with lastActive := now } else c)).filter
        (pairQuery a b)).length = (l.filter (pairQuery a b)).length := by
  rw [← List.countP_eq_length_filter, ← List.countP_eq_length_filter, List.countP_map]
  congr 1
  funext c
  exact pairQuery_set_lastActive a b sel now c

/-- Find-or-create preserves pair uniqueness: it inserts a conversation
only when the store holds no match for that pair, and the inserted
record can collide with no other distinct pair. -/
theorem pairUnique_findOrCreate (s : Store) (x y : Nat) (h : pairUnique s) :
    pairUnique (findOrCreateConversation s x y).2 := by
  cases hf : s.conversations.find? (pairQuery x y) with
  | some c =>
    have hs : (findOrCreateConversation s x y).2 = s := by
      unfold findOrCreateConversation; rw [hf]
    rw [hs]; exact h
  | none =>
    have hs : (findOrCreateConversation s x y).2 =
        { s with
          conversations :=
            s.conversations ++ [{ cid := s.nextCid, participants := [x, y], lastActive := 0 }],
          nextCid := s.nextCid + 1 } := by
      unfold findOrCreateConversation; rw [hf]
    rw [hs]
    intro a b hab
    show ((s.conversations ++
        [({ cid := s.nextCid, participants := [x, y], lastActive := 0 } : Conversation)]).filter
          (pairQuery a b)).length ≤ 1
    rw [List.filter_append]
    by_cases hq : pairQuery a b { cid := s.nextCid, participants := [x, y], lastActive := 0 } = true
    · have hmem : (a = x ∨ a = y) ∧ (b = x ∨ b = y) := by
        have hq' := hq
        unfold pairQuery at hq'
        simpa using hq'
      have hpq : pairQuery a b = pairQuery x y := by
        rcases hmem with ⟨ha, hb'⟩
        rcases ha with rfl | rfl <;> rcases hb' with rfl | rfl <;>
          first
          | exact absurd rfl hab
          | rfl
          | exact pairQuery_comm _ _
      have hold : s.conversations.filter (pairQuery a b) = [] := by
        rw [hpq]
        exact List.filter_eq_nil_iff.mpr (fun c hc hpc => (List.find?_eq_none.mp hf) c hc hpc)
      rw [hold]
      simp [List.filter_cons, hq]
    · have hsing : ([{ cid := s.nextCid, participants := [x, y], lastActive := 0 }].filter
          (pairQuery a b)) = [] := by
        simp [List.filter_cons, hq]
      rw [hsing]
      simpa using h a b hab

/-- One send request preserves pair uniqueness: the only conversation
write paths are the guarded upsert and the `lastActive` refresh. -/
theorem pairUnique_send (s : Store) (sender : User) (receiverId : ReqId)
    (content : Option String) (now : Nat) (h : pairUnique s) :
    pairUnique (sendRoute s sender receiverId content now).store := by
  cases receiverId with
  | malformed raw => simpa [sendRoute] using h
  | oid rid =>
    by_cases hc : trimOrEmpty content = ""
    · simpa [sendRoute, hc] using h
    · cases hfind : findUser s.users rid with
      | none => simpa [sendRoute, if_neg hc, hfind] using h
      | some receiver =>
        by_cases he : (receiver.uid == sender.uid) = true
        · simpa [sendRoute, if_neg hc, hfind, he] using h
        · by_cases hb : (sender.role == "business" && receiver.role != "user") = true
          · have he' : ¬(receiver.uid = sender.uid) := by simpa using he
            simpa [sendRoute, if_neg hc, hfind, hb, he'] using h
          · simp only [sendRoute, if_neg hc, hfind, if_neg he, if_neg hb]
            intro a b hab
            show ((((findOrCreateConversation s sender.uid rid).2.conversations).map
                (fun c => if c.cid == (findOrCreateConversation s sender.uid rid).1.cid
                  then { c with lastActive := now } else c)).filter (pairQuery a b)).length ≤ 1
            rw [filter_length_map_lastActive]
            exact pairUnique_findOrCreate s sender.uid rid h a b hab

/-- After one direction of a pair creates or finds the conversation, the
opposite ordering of the same pair finds the very same record and leaves
the store untouched. -/
theorem findOrCreate_comm_after (s : Store) (a b : Nat) :
    findOrCreateConversation (findOrCreateConversation s a b).2 b a =
      findOrCreateConversation s a b := by
  have hcomm : pairQuery b a = pairQuery a b := pairQuery_comm b a
  cases hf : s.conversations.find? (pairQuery a b) with
  | some c => simp only [findOrCreateConversation, hf, hcomm]
  | none =>
    simp only [findOrCreateConversation, hf, hcomm]
    rw [List.find?_append, hf]
    simp [List.find?, pairQuery_self]

/-- C1: conversation-pair uniqueness.  From any store satisfying the
invariant (at most one conversation per unordered pair of distinct ids),
any sequence of send requests — including first-ever sends issued in both
directions of a pair — preserves the invariant; and on any store,
find-or-create invoked for the opposite ordering of a pair right after
find-or-create for that pair returns the identical record and the
identical store. -/
theorem conversation_pair_uniqueness :
    (∀ (s : Store) (reqs : List SendReq), pairUnique s → pairUnique (applySends s reqs)) ∧
    (∀ (s : Store) (a b : Nat),
        findOrCreateConversation (findOrCreateConversation s a b).2 b a =
          findOrCreateConversation s a b) := by
  constructor
  · intro s reqs
    induction reqs generalizing s with
    | nil => exact fun h => h
    | cons r rs ih =>
        intro h
        exact ih _ (pairUnique_send s r.sender r.receiverId r.content r.now h)
  · exact findOrCreate_comm_after

/-- C1 witness: starting from an empty conversation collection, the
first-ever sends Alice→Bob then Bob→Alice leave at most one conversation
per pair in the store. -/
theorem conversation_pair_uniqueness_witness :
    pairUnique (applySends
      { users := baseUsers, conversations := [], messages := [], nextCid := 0, nextMid := 0 }
      [{ sender := uAlice, receiverId := .oid 2, content := some "hi", now := 1 },
       { sender := uBob, receiverId := .oid 1, content := some "yo", now := 2 }]) :=
  conversation_pair_uniqueness.1
    { users := baseUsers, conversations := [], messages := [], nextCid := 0, nextMid := 0 }
    [{ sender := uAlice, receiverId := .oid 2, content := some "hi", now := 1 },
     { sender := uBob, receiverId := .oid 1, content := some "yo", now := 2 }]
    (fun a b hab => by simp)

end BD
